import Mathlib

/-!
Shallow embedding of the LinarADC ESP32 ADC calibration library
(src/lib/LinarADC/LinarADC.cpp and LinarADC.h).

Modelling conventions:
- C++ float/double values are modelled as exact rationals; the one place
  where a square root is taken (the validator) maps the rational sum into
  the reals and uses Real.sqrt.
- C++ int is modelled as Lean Int; size_t indices as Nat.
- The SPIFFS file is modelled as an explicit payload value: the textual
  encoding as its token stream (the list of integers printed between the
  comma separators), the binary encoding as its byte list, the JSON
  encoding as the named key together with the integer array stored under
  it.
- ADC/DAC hardware reads are passed in as function parameters.
- The value-stabilisation spin loops of the readers are modelled twice:
  the decode paths assume ordinary (reliable) memory, where one store
  makes the cell equal to the value, and the loops used by the
  attempt-bound analysis are modelled explicitly against an arbitrary
  cell/stream behaviour.
-/

namespace LinarADC

/-- Truncation toward zero, the semantics of a C++ cast from a floating
value to int. -/
def qtrunc (q : ℚ) : ℤ := if 0 ≤ q then ⌊q⌋ else ⌈q⌉

/-- The per-element retry bound of the readers (LinarADC.h, maxAttempts). -/
def maxAttempts : ℕ := 1000

/-- writeFloatAsIntToTxt: each array entry is cast to int and printed,
separated by commas; the file is modelled as the resulting token stream. -/
def writeFloatAsIntToTxt (arr : ℕ → ℚ) (size : ℕ) : List ℤ :=
(List.range size).map (fun i => qtrunc (arr i))

/-- The four bytes of a 4-byte little-endian int, as written by
file.write(reinterpret_cast of an int) in writeFloatAsIntToBin. -/
def toBytes (v : ℤ) : List ℕ :=
[(v % 4294967296).toNat % 256,
 (v % 4294967296).toNat / 256 % 256,
 (v % 4294967296).toNat / 65536 % 256,
 (v % 4294967296).toNat / 16777216 % 256]

/-- writeFloatAsIntToBin: each entry cast to int and written back-to-back
as 4-byte words. -/
def writeFloatAsIntToBin (arr : ℕ → ℚ) (size : ℕ) : List ℕ :=
(List.range size).flatMap (fun i => toBytes (qtrunc (arr i)))

/-- writeFloatAsIntToJson: a document holding one array field named by the
configured file name; each entry cast to int. -/
def writeFloatAsIntToJson (arr : ℕ → ℚ) (size : ℕ) (key : String) : String × List ℤ :=
(key, (List.range size).map (fun i => qtrunc (arr i)))

/-- Result of one reader call: the returned bool, the ints stored into the
destination array, and whether the array-size-exceeded message was logged. -/
structure ReadOutcome where
  ok : Bool
  data : List ℤ
  overflowLogged : Bool
deriving DecidableEq, Repr

/-- readIntArrayFromTxt on an opened file, reliable-memory model: tokens
are consumed while index < maxSize; remaining tokens are dropped without
any overflow log line; the function then returns true. -/
def readIntArrayFromTxt (tokens : List ℤ) (maxSize : ℕ) : ReadOutcome :=
{ ok := true, data := tokens.take maxSize, overflowLogged := false }

/-- readIntArrayFromJson on a parsed document, reliable-memory model: the
array under the configured key is traversed; once index reaches size the
size-exceeded message is logged and the loop breaks; returns true.
A missing key yields a null array, hence no iterations. -/
def readIntArrayFromJson (key : String) (fileKey : String) (values : List ℤ) (maxSize : ℕ) : ReadOutcome :=
  let vals := if fileKey = key then values else []
  if maxSize < vals.length then
    { ok := true, data := vals.take maxSize, overflowLogged := true }
  else
    { ok := true, data := vals, overflowLogged := false }

/-- Reassemble a little-endian 4-byte word into a C++ int (two's
complement), as produced by file.read into an int in readIntArrayFromBin. -/
def fromBytes (b0 b1 b2 b3 : ℕ) : ℤ :=
  let m : ℕ := b0 + 256 * b1 + 65536 * b2 + 16777216 * b3
  if m < 2147483648 then (m : ℤ) else (m : ℤ) - 4294967296

/-- The chunk loop of readIntArrayFromBin: while index < maxSize and bytes
remain, read one 4-byte word. A nonempty tail shorter than 4 bytes makes
the inner byte-read spin of the source loop forever (file.read can never
return sizeof int); that execution is modelled as none. -/
def readBinLoop (m : ℕ) (bs : List ℕ) : Option (List ℤ) :=
  match m, bs with
  | _, [] => some []
  | 0, _ => some []
  | m+1, b0 :: b1 :: b2 :: b3 :: rest =>
      (readBinLoop m rest).map (fun l => fromBytes b0 b1 b2 b3 :: l)
  | _+1, _ => none

/-- readIntArrayFromBin on an opened file, reliable-memory model. -/
def readIntArrayFromBin (bytes : List ℕ) (maxSize : ℕ) : Option ReadOutcome :=
(readBinLoop maxSize bytes).map (fun l => { ok := true, data := l, overflowLogged := false })

/-- A persisted calibration file in one of the three encodings. -/
inductive Payload where
  | txtP : List ℤ → Payload
  | binP : List ℕ → Payload
  | jsonP : String → List ℤ → Payload
deriving DecidableEq

/-- saveFile: dispatch on the configured file type string, writing 4097
entries (the results array including the sentinel slot). -/
def saveFile (fileType : String) (key : String) (arr : ℕ → ℚ) : Option Payload :=
  if fileType = ".txt" then some (Payload.txtP (writeFloatAsIntToTxt arr 4097))
  else if fileType = ".bin" then some (Payload.binP (writeFloatAsIntToBin arr 4097))
  else if fileType = ".json" then some (Payload.jsonP key (writeFloatAsIntToJson arr 4097 key).2)
  else none

/-- openFile: dispatch on the configured file type string, reading into
calibrationArray with capacity 4096. A payload whose encoding does not
match the configured type stands for an unreadable file. -/
def openFile (fileType : String) (key : String) (p : Payload) : Option ReadOutcome :=
  if fileType = ".txt" then
    match p with
    | Payload.txtP toks => some (readIntArrayFromTxt toks 4096)
    | _ => none
  else if fileType = ".json" then
    match p with
    | Payload.jsonP k vs => some (readIntArrayFromJson key k vs 4096)
    | _ => none
  else if fileType = ".bin" then
    match p with
    | Payload.binP bs => readIntArrayFromBin bs 4096
    | _ => none
  else none

/-- The per-element stabilisation loop of readIntArrayFromTxt and
readIntArrayFromJson, against an arbitrary cell behaviour: cell w is what
the destination cell reads back after w stores. The attempt counter is
checked inside the loop body, so the loop runs at most maxAttempts stores
and returns none (read failure) when the cell never stabilises. Called
with fuel = maxAttempts. -/
def boundedRetry (cell : ℕ → ℤ) (v : ℤ) : ℕ → ℕ → Option ℕ
  | _, 0 => none
  | w, fuel+1 => if cell w = v then some w else boundedRetry cell v (w+1) fuel

/-- The inner byte-read spin of readIntArrayFromBin: while bytesRead is
not sizeof int, call file.read again. readChunk t is the byte count the
t-th call returns. The source checks the attempt counter only after this
loop has already exited, so the loop itself has no bound; fuel makes the
model total, and exhausting any fuel without returning shows the source
loop never exits. -/
def binByteLoop (readChunk : ℕ → ℕ) : ℕ → ℕ → Option ℕ
  | _, 0 => none
  | t, fuel+1 => if readChunk t = 4 then some t else binByteLoop readChunk (t+1) fuel

/-- The results buffer after the half-code offset, with the sentinel slot
4096 rewritten to 4095.5 just before the oversampling loop
(results[4096] = 4095.5000 in generateLut). -/
def updSentinel (res : ℕ → ℚ) : ℕ → ℚ := Function.update res 4096 (4095.5 : ℚ)

/-- The value generateLut stores at res2[i*5+j]:
results[i] + (results[i+1] - results[i]) * j / 10. -/
def fineEntry (res : ℕ → ℚ) (i j : ℕ) : ℚ :=
res i + (res (i+1) - res i) * (j : ℚ) / 10

/-- The oversampled fine-grid entry as the specification words it: linear
interpolation between adjacent entries with step j / 5. -/
def specFineEntry (res : ℕ → ℚ) (i j : ℕ) : ℚ :=
res i + (res (i+1) - res i) * (j : ℚ) / 5

/-- Inner loop of the oversampling stage: writes res2[i*5+j] for j < 5. -/
def oversampleInner (res : ℕ → ℚ) (i : ℕ) (a : ℕ → ℚ) : ℕ → ℚ :=
(List.range 5).foldl (fun b j => Function.update b (i*5+j) (fineEntry res i j)) a

/-- Both loops of the oversampling stage, starting from the zero-filled
res2 buffer allocated in the constructor. -/
def oversample (res : ℕ → ℚ) : ℕ → ℚ :=
(List.range 4096).foldl (fun a i => oversampleInner res i a) (fun _ => 0)

/-- The FineGrid produced by generateLut from the offset results buffer. -/
def fineGrid (res : ℕ → ℚ) : ℕ → ℚ := oversample (updSentinel res)

/-- One step of the inversion scan: keep the index when its distance is
strictly smaller than the current minimum. -/
def scanStep (d : ℕ → ℚ) (p : ℚ × ℕ) (j : ℕ) : ℚ × ℕ :=
if d j < p.1 then (d j, j) else p

/-- The inversion scan over the first n fine-grid indices, starting from
minDiff = 99999.0 and the (uninitialised in the source) index d0. -/
def scanFold (d : ℕ → ℚ) (d0 : ℕ) (n : ℕ) : ℚ × ℕ :=
(List.range n).foldl (scanStep d) (99999, d0)

/-- Distance of target code i from fine-grid entry j. -/
def diffAt (g : ℕ → ℚ) (i : ℕ) (j : ℕ) : ℚ := |(i : ℚ) - g j|

/-- The fine-grid index generateLut records for target code i. -/
def invertEntry (g : ℕ → ℚ) (d0 : ℕ) (i : ℕ) : ℕ :=
(scanFold (diffAt g i) d0 (5*4096)).2

/-- The final correction-table value: inverted indices are produced for
i in 1..4095, every entry is divided by 5, and entry 0 is forced to 0. -/
def lutValue (g : ℕ → ℚ) (d0 : ℕ) (i : ℕ) : ℚ :=
if i = 0 then 0 else (invertEntry g d0 i : ℚ) / 5

/-- The calibrated squared-error accumulation loop of calibration():
for i = 1..249, add (i*16 - calibrationArray[rawReading i]) squared,
starting from the accumulator value init (declared without an initialiser
in the source). raw i is the ADC reading measured at DAC code i and tbl
is the loaded calibration array. -/
def sumSqCal (init : ℚ) (raw : ℕ → ℕ) (tbl : ℕ → ℤ) : ℚ :=
(List.range' 1 249).foldl (fun a (i : ℕ) => a + ((((i : ℤ) * 16 - tbl (raw i) : ℤ)) : ℚ)^2) init

/-- The uncalibrated squared-error accumulation of calibration(), kept for
completeness; it is logged but plays no part in the accept decision. -/
def sumSqRaw (init : ℚ) (raw : ℕ → ℕ) : ℚ :=
(List.range' 1 249).foldl (fun a (i : ℕ) => a + ((((i : ℤ) * 16 - (raw i : ℤ) : ℤ)) : ℚ)^2) init

/-- The normalized RMS error computed by calibration():
sqrt(sum / 249) / 3968 * 100. -/
noncomputable def calibMse (s : ℚ) : ℝ := Real.sqrt ((s : ℝ) / 249) / 3968 * 100

/-- The observable outcome of the tail of calibration() once the file has
been reopened successfully, as a relation because the branch compares real
numbers: the pair is (returned value, whether the persisted file was
deleted). The source rejects when mseCalibrated > 1 (deleting the file and
returning false) and accepts otherwise. -/
inductive CalibResult (s : ℚ) : Bool × Bool → Prop where
  | reject : 1 < calibMse s → CalibResult s (false, true)
  | accept : calibMse s ≤ 1 → CalibResult s (true, false)

/-- The fixed fourth-degree fallback polynomial of read(), with the
coefficient literals exactly as written in the source. -/
def poly (x : ℚ) : ℚ :=
-0.000000000000016 * x^4
 + 0.000000000118171 * x^3
 - 0.000000301211691 * x^2
 + 0.001109019271794 * x
 + 0.034143524634089

/-- The same polynomial with the coefficients as the specification writes
them (scientific notation). -/
def specPoly (x : ℚ) : ℚ :=
-1.6e-14 * x^4
 + 1.18171e-10 * x^3
 - 3.01211691e-7 * x^2
 + 1.109019271794e-3 * x
 + 0.034143524634089

/-- The mutable state of a LinarADC object: the results sweep buffer
(none once freed), the loaded calibration array, the calibration-use flag,
and the persisted file. -/
structure ADCState where
  results : Option (List ℚ)
  calibrationArray : List ℤ
  useCalibration : Bool
  stored : Option Payload
deriving DecidableEq

/-- The state established by the constructor: results allocated and
zero-filled (4097 floats), calibrationArray zero-filled (4096 ints),
useCalibration false. -/
def initState : ADCState :=
{ results := some (List.replicate 4097 0)
, calibrationArray := List.replicate 4096 0
, useCalibration := false
, stored := none }

/-- The environment a save() call runs against: whether SPIFFS mounts,
the measurement outcome of the sweep (as a transformation of the results
buffer), the configured file type and key, and the outcome of the
validation step (whether the file reopens and whether the error gate
accepts). -/
structure SaveEnv where
  spiffsOk : Bool
  sweep : List ℚ → List ℚ
  fileType : String
  key : String
  calibOpenOk : Bool
  calibAccept : Bool

/-- save(): mount SPIFFS (return false if that fails), run generateLut on
the results buffer (dereferencing it; none models the null dereference
when the buffer was already freed), persist via saveFile, then free
results and run calibration; a validation reject deletes the stored file. -/
def saveModel (env : SaveEnv) (s : ADCState) : Option (Bool × ADCState) :=
  if env.spiffsOk = false then some (false, s)
  else
    match s.results with
    | none => none
    | some buf =>
      let buf2 := env.sweep buf
      match saveFile env.fileType env.key (fun i => buf2.getD i 0) with
      | none => some (false, { s with results := some buf2 })
      | some payload =>
        let s2 : ADCState := { s with results := none, stored := some payload }
        if env.calibOpenOk = false then some (false, s2)
        else if env.calibAccept then some (true, s2)
        else some (false, { s2 with stored := none })

/-- begin(): mount SPIFFS (return false, state untouched, if that fails);
openFile failure or a zero at sanity index 1000 assign-and-return
useCalibration = false; otherwise assign-and-return true. loadResult is
none when openFile fails, else the array it stored. -/
def beginModel (spiffsOk : Bool) (loadResult : Option (List ℤ)) (s : ADCState) : Bool × ADCState :=
  if spiffsOk = false then (false, s)
  else
    match loadResult with
    | none => (false, { s with useCalibration := false })
    | some arr =>
      if arr.getD 1000 0 = 0 then (false, { s with calibrationArray := arr, useCalibration := false })
      else (true, { s with calibrationArray := arr, useCalibration := true })

/-- read(): with the flag set, a direct calibrationArray lookup at the raw
reading; otherwise the truncated scaled polynomial 4096 * f(x) / 3.3. -/
def readOp (s : ADCState) (readValue : ℕ) : ℤ :=
  if s.useCalibration then s.calibrationArray.getD readValue 0
  else qtrunc (4096 * poly (readValue : ℚ) / (3.3 : ℚ))

/-- Truncation of an integer-valued rational is the integer itself. -/
lemma qtrunc_intCast (n : ℤ) : qtrunc (n : ℚ) = n := by
unfold qtrunc
split <;> simp

/-- The coefficient literals of the source polynomial agree with the
scientific-notation coefficients given in the specification. -/
lemma poly_eq_specPoly (x : ℚ) : poly x = specPoly x := by
unfold poly specPoly
norm_num

/-- Claim C5: for a raw reading r in range, read returns the direct table
lookup when the calibration-use flag is set, and otherwise the integer
truncation of 4096 * f(r) / 3.3 with f the fixed fourth-degree polynomial
whose coefficients are exactly those of the specification. -/
theorem c5_corrector (resOpt : Option (List ℚ)) (arr : List ℤ) (st : Option Payload)
    (r : ℕ) (hr : r < 4096) :
    readOp ⟨resOpt, arr, true, st⟩ r = arr.getD r 0 ∧
    readOp ⟨resOpt, arr, false, st⟩ r = qtrunc (4096 * specPoly (r : ℚ) / 3.3) := by
constructor
· rfl
· show qtrunc (4096 * poly (r : ℚ) / (3.3 : ℚ)) = qtrunc (4096 * specPoly (r : ℚ) / 3.3)
  rw [poly_eq_specPoly]

/-- Witness for C5 at the concrete reading 1000. -/
theorem c5_witness :
    readOp ⟨none, [], true, none⟩ 1000 = ([] : List ℤ).getD 1000 0 ∧
    readOp ⟨none, [], false, none⟩ 1000 = qtrunc (4096 * specPoly (1000 : ℚ) / 3.3) :=
c5_corrector none [] none 1000 (by norm_num)

/-- Claim C6 as stated is false: when the storage mount fails, begin()
returns false without assigning the calibration-use flag, so with a
previously established flag the returned value differs from the resulting
flag value. -/
theorem c6_counterexample :
    (beginModel false none { initState with useCalibration := true }).1 ≠
      (beginModel false none { initState with useCalibration := true }).2.useCalibration := by
decide

/-- Claim C6 (amended): when the storage mount succeeds, begin() sets the
flag to false if the record is absent or malformed or the value at sanity
index 1000 is zero and to true otherwise, and returns the resulting flag;
when the mount fails it returns false leaving the state, including the
flag, unchanged. -/
theorem c6_begin (loadRes : Option (List ℤ)) (s : ADCState) :
    beginModel false loadRes s = (false, s) ∧
    (beginModel true loadRes s).1 = (beginModel true loadRes s).2.useCalibration ∧
    (beginModel true loadRes s).2.useCalibration =
      (match loadRes with
       | none => false
       | some arr => !(arr.getD 1000 0 == 0)) := by
refine ⟨rfl, ?_, ?_⟩ <;>
  cases loadRes <;>
    simp only [beginModel, Bool.false_eq_true, if_false, reduceCtorEq] <;>
      split_ifs <;> simp_all

/-- Claim C4 is violated by the binary reader: its inner byte-read loop
checks the attempt counter only after the loop has exited, so a storage
source that never returns a full 4-byte word (modelled as every read
returning 0 bytes) spins forever: no step budget, however far beyond the
1000-attempt bound, makes the loop return. -/
theorem c4_bin_retry_unbounded :
    ∀ fuel t : ℕ, binByteLoop (fun _ => 0) t fuel = none := by
intro fuel
induction fuel with
| zero => intro t; rfl
| succ n ih =>
  intro t
  simp only [binByteLoop]
  exact ih (t+1)

/-- Reassembling the four little-endian bytes of an in-range int yields
the int back. -/
lemma fromBytes_toBytes (v : ℤ) (h0 : 0 ≤ v) (h1 : v < 4096) :
    fromBytes ((v % 4294967296).toNat % 256) ((v % 4294967296).toNat / 256 % 256)
      ((v % 4294967296).toNat / 65536 % 256) ((v % 4294967296).toNat / 16777216 % 256) = v := by
unfold fromBytes
have hmod : v % 4294967296 = v := Int.emod_eq_of_lt h0 (by omega)
rw [hmod]
dsimp only
split_ifs with h <;> omega

/-- The binary chunk loop over a stream of whole in-range words stores the
first maxSize words. -/
lemma readBinLoop_flat :
    ∀ (vals : List ℤ), (∀ v ∈ vals, 0 ≤ v ∧ v < 4096) →
      ∀ m, readBinLoop m (vals.flatMap toBytes) = some (vals.take m) := by
intro vals
induction vals with
| nil =>
  intro _ m
  simp [readBinLoop]
| cons v tl ih =>
  intro h m
  have hv := h v (by simp)
  have htl : ∀ x ∈ tl, 0 ≤ x ∧ x < 4096 := fun x hx => h x (by simp [hx])
  cases m with
  | zero =>
    simp only [List.flatMap_cons, toBytes, List.cons_append]
    rfl
  | succ m =>
    simp only [List.flatMap_cons, toBytes, List.cons_append, List.nil_append]
    simp only [readBinLoop, ih htl m, Option.map_some']
    rw [fromBytes_toBytes v hv.1 hv.2]
    rfl

/-- Taking 4096 of a 4097-long mapped range drops exactly the last entry. -/
lemma take_range_map (f : ℕ → ℤ) :
    ((List.range 4097).map f).take 4096 = (List.range 4096).map f := by
rw [← List.map_take, List.take_range, Nat.min_eq_left (by norm_num)]

/-- Casting an integer sequence into the float buffer and truncating back
is the identity on the written tokens. -/
lemma map_qtrunc_intCast (vals : ℕ → ℤ) (n : ℕ) :
    (List.range n).map (fun i => qtrunc ((vals i : ℚ))) = (List.range n).map vals := by
simp [qtrunc_intCast]

/-- Round trip of the text encoding through saveFile and openFile: the
4097 written tokens are read back with capacity 4096. -/
lemma txt_roundtrip (vals : ℕ → ℤ) :
    (saveFile ".txt" "CalibrationResults" (fun i => (vals i : ℚ))).bind
        (openFile ".txt" "CalibrationResults") =
      some { ok := true, data := (List.range 4096).map vals, overflowLogged := false } := by
have h1 : saveFile ".txt" "CalibrationResults" (fun i => (vals i : ℚ)) =
    some (Payload.txtP (writeFloatAsIntToTxt (fun i => (vals i : ℚ)) 4097)) := rfl
rw [h1, Option.some_bind]
have h2 : openFile ".txt" "CalibrationResults"
      (Payload.txtP (writeFloatAsIntToTxt (fun i => (vals i : ℚ)) 4097)) =
    some (readIntArrayFromTxt (writeFloatAsIntToTxt (fun i => (vals i : ℚ)) 4097) 4096) := rfl
rw [h2]
unfold readIntArrayFromTxt writeFloatAsIntToTxt
rw [map_qtrunc_intCast, take_range_map]

/-- Round trip of the JSON encoding: the 4097 written entries are read
back with capacity 4096 and the overflow is logged. -/
lemma json_roundtrip (key : String) (vals : ℕ → ℤ) :
    (saveFile ".json" key (fun i => (vals i : ℚ))).bind (openFile ".json" key) =
      some { ok := true, data := (List.range 4096).map vals, overflowLogged := true } := by
have h1 : saveFile ".json" key (fun i => (vals i : ℚ)) =
    some (Payload.jsonP key (writeFloatAsIntToJson (fun i => (vals i : ℚ)) 4097 key).2) := rfl
rw [h1, Option.some_bind]
have h2 : openFile ".json" key
      (Payload.jsonP key (writeFloatAsIntToJson (fun i => (vals i : ℚ)) 4097 key).2) =
    some (readIntArrayFromJson key key
      (writeFloatAsIntToJson (fun i => (vals i : ℚ)) 4097 key).2 4096) := rfl
rw [h2]
have h3 : (writeFloatAsIntToJson (fun i => (vals i : ℚ)) 4097 key).2 =
    (List.range 4097).map vals := by
  unfold writeFloatAsIntToJson
  dsimp only
  exact map_qtrunc_intCast vals 4097
rw [h3]
simp only [readIntArrayFromJson, eq_self_iff_true, if_true]
rw [if_pos (by simp), take_range_map]

/-- Round trip of the binary encoding: 4097 written words, 4096 read back. -/
lemma bin_roundtrip (vals : ℕ → ℤ) (h : ∀ i, i < 4097 → 0 ≤ vals i ∧ vals i < 4096) :
    (saveFile ".bin" "CalibrationResults" (fun i => (vals i : ℚ))).bind
        (openFile ".bin" "CalibrationResults") =
      some { ok := true, data := (List.range 4096).map vals, overflowLogged := false } := by
have h1 : saveFile ".bin" "CalibrationResults" (fun i => (vals i : ℚ)) =
    some (Payload.binP (writeFloatAsIntToBin (fun i => (vals i : ℚ)) 4097)) := rfl
rw [h1, Option.some_bind]
have h2 : openFile ".bin" "CalibrationResults"
      (Payload.binP (writeFloatAsIntToBin (fun i => (vals i : ℚ)) 4097)) =
    readIntArrayFromBin (writeFloatAsIntToBin (fun i => (vals i : ℚ)) 4097) 4096 := rfl
rw [h2]
have h3 : writeFloatAsIntToBin (fun i => (vals i : ℚ)) 4097 =
    ((List.range 4097).map vals).flatMap toBytes := by
  unfold writeFloatAsIntToBin
  rw [List.flatMap_map vals toBytes (List.range 4097)]
  simp [qtrunc_intCast]
unfold readIntArrayFromBin
rw [h3, readBinLoop_flat ((List.range 4097).map vals)
  (by
    intro v hv
    rw [List.mem_map] at hv
    obtain ⟨i, hi, hiv⟩ := hv
    rw [List.mem_range] at hi
    exact hiv ▸ h i hi) 4096]
rw [Option.map_some', take_range_map]

/-- Claim C2 as stated is false: encoding 4097 values with saveFile and
decoding with openFile does not return all 4097 values, because openFile
reads with destination capacity 4096 (here shown for the text encoding
with every value equal to 1). -/
theorem c2_counterexample :
    ((saveFile ".txt" "CalibrationResults" (fun i => (((fun _ => (1 : ℤ)) i : ℤ) : ℚ))).bind
        (openFile ".txt" "CalibrationResults")).map ReadOutcome.data ≠
      some ((List.range 4097).map (fun _ => (1 : ℤ))) := by
rw [txt_roundtrip (fun _ => (1 : ℤ))]
simp only [Option.map_some']
intro heq
have h2 := Option.some.inj heq
have h3 := congrArg List.length h2
rw [List.length_map, List.length_map, List.length_range, List.length_range] at h3
exact absurd h3 (by norm_num)

/-- Claim C2 (amended): for every sequence of 4097 in-range integers,
decoding the result of encoding yields the first 4096 values of the
sequence with a successful status, for each of the three encodings; the
4097th value is dropped because openFile reads with capacity 4096 (the
JSON reader additionally logs the overflow). -/
theorem c2_roundtrip (vals : ℕ → ℤ) (h : ∀ i, i < 4097 → 0 ≤ vals i ∧ vals i < 4096) :
    ((saveFile ".txt" "CalibrationResults" (fun i => (vals i : ℚ))).bind
        (openFile ".txt" "CalibrationResults") =
      some { ok := true, data := (List.range 4096).map vals, overflowLogged := false }) ∧
    ((saveFile ".bin" "CalibrationResults" (fun i => (vals i : ℚ))).bind
        (openFile ".bin" "CalibrationResults") =
      some { ok := true, data := (List.range 4096).map vals, overflowLogged := false }) ∧
    ((saveFile ".json" "CalibrationResults" (fun i => (vals i : ℚ))).bind
        (openFile ".json" "CalibrationResults") =
      some { ok := true, data := (List.range 4096).map vals, overflowLogged := true }) :=
⟨txt_roundtrip vals, bin_roundtrip vals h, json_roundtrip "CalibrationResults" vals⟩

/-- Witness for C2 with every value equal to 1. -/
theorem c2_witness :
    ((saveFile ".txt" "CalibrationResults" (fun i => (((fun _ => (1 : ℤ)) i : ℤ) : ℚ))).bind
        (openFile ".txt" "CalibrationResults") =
      some { ok := true, data := (List.range 4096).map (fun _ => (1 : ℤ)), overflowLogged := false }) ∧
    ((saveFile ".bin" "CalibrationResults" (fun i => (((fun _ => (1 : ℤ)) i : ℤ) : ℚ))).bind
        (openFile ".bin" "CalibrationResults") =
      some { ok := true, data := (List.range 4096).map (fun _ => (1 : ℤ)), overflowLogged := false }) ∧
    ((saveFile ".json" "CalibrationResults" (fun i => (((fun _ => (1 : ℤ)) i : ℤ) : ℚ))).bind
        (openFile ".json" "CalibrationResults") =
      some { ok := true, data := (List.range 4096).map (fun _ => (1 : ℤ)), overflowLogged := true }) :=
c2_roundtrip (fun _ => (1 : ℤ)) (fun i _ => ⟨by norm_num, by norm_num⟩)

/-- Claim C8 as stated is false for the text reader: an overflowing
payload is truncated non-fatally, but no overflow condition is logged
(only the JSON reader logs it). -/
theorem c8_counterexample :
    4096 < (List.replicate 4097 (1 : ℤ)).length ∧
    (readIntArrayFromTxt (List.replicate 4097 (1 : ℤ)) 4096).ok = true ∧
    (readIntArrayFromTxt (List.replicate 4097 (1 : ℤ)) 4096).overflowLogged = false :=
⟨by rw [List.length_replicate]; norm_num, rfl, rfl⟩

/-- Claim C8 (amended): an overflowing payload is decoded non-fatally by
all three readers, storing exactly the first maxCount entries and
dropping the rest; the overflow is reported through the log only by the
JSON reader, while the text and binary readers truncate silently. -/
theorem c8_capacity (vals : List ℤ) (key : String) (m : ℕ)
    (hm : m < vals.length) (hv : ∀ v ∈ vals, 0 ≤ v ∧ v < 4096) :
    readIntArrayFromTxt vals m = { ok := true, data := vals.take m, overflowLogged := false } ∧
    readIntArrayFromJson key key vals m = { ok := true, data := vals.take m, overflowLogged := true } ∧
    readIntArrayFromBin (vals.flatMap toBytes) m =
      some { ok := true, data := vals.take m, overflowLogged := false } := by
refine ⟨rfl, ?_, ?_⟩
· simp only [readIntArrayFromJson, eq_self_iff_true, if_true]
  rw [if_pos hm]
· unfold readIntArrayFromBin
  rw [readBinLoop_flat vals hv m, Option.map_some']

/-- Witness for C8 on a 2-token payload with capacity 1. -/
theorem c8_witness :
    readIntArrayFromTxt [0, 1] 1 = { ok := true, data := [(0 : ℤ), 1].take 1, overflowLogged := false } ∧
    readIntArrayFromJson "k" "k" [0, 1] 1 =
      { ok := true, data := [(0 : ℤ), 1].take 1, overflowLogged := true } ∧
    readIntArrayFromBin ([(0 : ℤ), 1].flatMap toBytes) 1 =
      some { ok := true, data := [(0 : ℤ), 1].take 1, overflowLogged := false } :=
c8_capacity [0, 1] "k" 1 (by norm_num)
  (by intro v hv; rcases List.mem_pair.mp hv with h | h <;> subst h <;> norm_num)

/-- Claim C10 as stated is false: a successful save() frees the results
buffer (it becomes none) and a second save() on the resulting state
dereferences the freed buffer, modelled as none. -/
theorem c10_counterexample :
    ((saveModel ⟨true, fun l => l, ".bin", "CalibrationResults", true, true⟩ initState).map
        (fun p => p.2.results.isSome) = some false) ∧
    ((saveModel ⟨true, fun l => l, ".bin", "CalibrationResults", true, true⟩ initState).bind
        (fun p => saveModel ⟨true, fun l => l, ".bin", "CalibrationResults", true, true⟩ p.2) =
      none) :=
⟨rfl, rfl⟩

/-- Claim C10 (amended): begin() preserves the results buffer, read()
does not touch the object state at all, and a save() that reaches the
persist step frees results without reallocating it, so the 4097-element
buffer invariant is destroyed and a second save() cannot run the sweep:
save is single-shot per object. -/
theorem c10_save_single_shot (env : SaveEnv) (s : ADCState) (buf : List ℚ)
    (hs : env.spiffsOk = true)
    (hsf : (saveFile env.fileType env.key (fun i => (env.sweep buf).getD i 0)).isSome)
    (ok : Bool) (loadRes : Option (List ℤ)) :
    ((saveModel env { s with results := some buf }).map (fun p => p.2.results) = some none) ∧
    (saveModel env { s with results := none } = none) ∧
    ((beginModel ok loadRes s).2.results = s.results) := by
obtain ⟨pl, hpl⟩ := Option.isSome_iff_exists.mp hsf
refine ⟨?_, ?_, ?_⟩
· unfold saveModel
  rw [hs, if_neg (by decide)]
  dsimp only
  rw [hpl]
  dsimp only
  split_ifs <;> rfl
· simp [saveModel, hs]
· unfold beginModel
  cases ok <;> cases loadRes <;> simp <;> split_ifs <;> rfl

/-- Witness for C10 at a concrete environment and the constructor state. -/
theorem c10_witness :
    ((saveModel ⟨true, fun l => l, ".bin", "CalibrationResults", true, true⟩
        { initState with results := some [] }).map (fun p => p.2.results) = some none) ∧
    (saveModel ⟨true, fun l => l, ".bin", "CalibrationResults", true, true⟩
        { initState with results := none } = none) ∧
    ((beginModel true none initState).2.results = initState.results) :=
c10_save_single_shot ⟨true, fun l => l, ".bin", "CalibrationResults", true, true⟩
  initState [] rfl (by rfl) true none

/-- Folding an addition of all-zero terms leaves the accumulator. -/
lemma foldl_add_eq_init (l : List ℕ) (f : ℕ → ℚ) (hf : ∀ i ∈ l, f i = 0) :
    ∀ a : ℚ, l.foldl (fun a i => a + f i) a = a := by
induction l with
| nil => intro a; rfl
| cons x xs ih =>
  intro a
  rw [List.foldl_cons, hf x (by simp), add_zero]
  exact ih (fun i hi => hf i (by simp [hi])) a

/-- With an exact loopback (reading i*16 at DAC code i) and the identity
table, the squared-error loop adds nothing to the accumulator. -/
lemma sumSqCal_id (init : ℚ) :
    sumSqCal init (fun i => 16*i) (fun r => (r : ℤ)) = init := by
unfold sumSqCal
refine foldl_add_eq_init _ (fun i => ((((i : ℤ) * 16 - ((16*i : ℕ) : ℤ) : ℤ)) : ℚ)^2) ?_ init
intro i _
push_cast
ring

/-- A zero squared-error sum passes the 1 percent gate. -/
lemma calibMse_zero_le_one : calibMse 0 ≤ 1 := by
unfold calibMse
norm_num [Real.sqrt_zero]

/-- Claim C3: the validator computes the corrected normalized RMS error
as sqrt(sum/249)/3968*100 over DAC codes 1..249 (accumulator taken from
zero; the source leaves it uninitialised, see the companion analysis),
returns true exactly when that value is at most 1, and every rejection
deletes the persisted file. -/
theorem c3_validator (raw : ℕ → ℕ) (tbl : ℕ → ℤ) (out : Bool × Bool)
    (h : CalibResult (sumSqCal 0 raw tbl) out) :
    (out.1 = true ↔ calibMse (sumSqCal 0 raw tbl) ≤ 1) ∧
    (out.1 = false → out.2 = true) := by
cases h with
| reject hgt =>
  refine ⟨⟨fun hfalse => absurd hfalse (by decide), fun hle => ((not_le.mpr hgt) hle).elim⟩, fun _ => rfl⟩
| accept hle =>
  exact ⟨⟨fun _ => hle, fun _ => rfl⟩, fun hfalse => absurd hfalse (by decide)⟩

/-- Witness for C3: an exact loopback with the identity table is
accepted. -/
theorem c3_witness :
    (((true, false) : Bool × Bool).1 = true ↔
      calibMse (sumSqCal 0 (fun i => 16*i) (fun r => (r : ℤ))) ≤ 1) ∧
    (((true, false) : Bool × Bool).1 = false → ((true, false) : Bool × Bool).2 = true) :=
c3_validator (fun i => 16*i) (fun r => (r : ℤ)) (true, false)
  (CalibResult.accept (by rw [sumSqCal_id]; exact calibMse_zero_le_one))

/-- Claim C9 is right about the intent but the code violates it: the
accumulators are declared without initialisers, and the accept decision
depends on the garbage starting value; with the same exact measurements
the gate accepts when the accumulator happens to start at 0 and rejects
when it happens to start at 398400. -/
theorem c9_uninitialized_accumulator :
    calibMse (sumSqCal 0 (fun i => 16*i) (fun r => (r : ℤ))) ≤ 1 ∧
    1 < calibMse (sumSqCal 398400 (fun i => 16*i) (fun r => (r : ℤ))) := by
constructor
· rw [sumSqCal_id]
  exact calibMse_zero_le_one
· rw [sumSqCal_id]
  unfold calibMse
  have h1 : ((398400 : ℚ) : ℝ) / 249 = 1600 := by
    push_cast
    norm_num
  rw [h1]
  have h2 : Real.sqrt 1600 = 40 := by
    rw [show (1600 : ℝ) = 40^2 by norm_num]
    exact Real.sqrt_sq (by norm_num)
  rw [h2]
  norm_num

/-- The inner oversampling loop writes exactly the window of five cells
starting at i*5 and leaves every other cell unchanged. -/
lemma innerFold_eq (res : ℕ → ℚ) (i : ℕ) (a : ℕ → ℚ) :
    ∀ (m : ℕ) (k : ℕ),
      ((List.range m).foldl (fun b j => Function.update b (i*5+j) (fineEntry res i j)) a) k =
        if i*5 ≤ k ∧ k < i*5+m then fineEntry res i (k - i*5) else a k := by
intro m
induction m with
| zero =>
  intro k
  rw [List.range_zero, List.foldl_nil, if_neg (by omega)]
| succ m ih =>
  intro k
  rw [List.range_succ, List.foldl_append, List.foldl_cons, List.foldl_nil,
    Function.update_apply]
  by_cases hk : k = i*5+m
  · rw [if_pos hk, if_pos (by omega)]
    congr 1
    omega
  · rw [if_neg hk, ih k]
    by_cases h2 : i*5 ≤ k ∧ k < i*5+m
    · rw [if_pos h2, if_pos (by omega)]
    · rw [if_neg h2, if_neg (by omega)]

/-- The full oversampling double loop fills the first 5*n cells with the
interpolation formula of the source and leaves the rest at zero. -/
lemma oversample_eq (res : ℕ → ℚ) :
    ∀ (n : ℕ) (k : ℕ),
      ((List.range n).foldl (fun a i => oversampleInner res i a) (fun _ => 0)) k =
        if k < 5*n then fineEntry res (k/5) (k%5) else 0 := by
intro n
induction n with
| zero =>
  intro k
  rw [List.range_zero, List.foldl_nil, if_neg (by omega)]
| succ n ih =>
  intro k
  rw [List.range_succ, List.foldl_append, List.foldl_cons, List.foldl_nil]
  unfold oversampleInner at ih ⊢
  rw [innerFold_eq res n _ 5 k]
  by_cases h1 : n*5 ≤ k ∧ k < n*5+5
  · rw [if_pos h1, if_pos (by omega)]
    have hd : k / 5 = n := by omega
    have hm : k % 5 = k - n*5 := by omega
    rw [hd, hm]
  · rw [if_neg h1, ih k]
    by_cases h2 : k < 5*n
    · rw [if_pos h2, if_pos (by omega)]
    · rw [if_neg h2, if_neg (by omega)]

/-- Pointwise value of the FineGrid produced by generateLut. -/
lemma fineGrid_eq (res : ℕ → ℚ) (i j : ℕ) (hi : i < 4096) (hj : j < 5) :
    fineGrid res (i*5+j) = fineEntry (updSentinel res) i j := by
unfold fineGrid oversample
rw [oversample_eq (updSentinel res) 4096 (i*5+j), if_pos (by omega)]
have h1 : (i*5+j)/5 = i := by omega
have h2 : (i*5+j)%5 = j := by omega
rw [h1, h2]

/-- Claim C1 as stated is false: the oversampling loop advances by j/10,
not j/5; already at i = 0, j = 1 with the identity buffer the grid entry
is 1/10 while the claimed interpolation formula gives 1/5. -/
theorem c1_counterexample :
    fineGrid (fun n => (n : ℚ)) (0*5+1) ≠
      specFineEntry (updSentinel (fun n => (n : ℚ))) 0 1 := by
rw [fineGrid_eq (fun n => (n : ℚ)) 0 1 (by norm_num) (by norm_num)]
unfold fineEntry specFineEntry updSentinel
rw [Function.update_noteq (by norm_num) _ _, Function.update_noteq (by norm_num) _ _]
norm_num

/-- Claim C1 (amended): the FineGrid is produced by stepping only j/10 of
the way between adjacent RawSweepBuffer entries: for i < 4096 and j < 5,
FineGrid[i*5+j] = buf[i] + (buf[i+1] - buf[i]) * j / 10, where buf is the
offset results buffer with its sentinel slot rewritten to 4095.5 as the
closing bound. -/
theorem c1_fineGrid_tenth (res : ℕ → ℚ) (i j : ℕ) (hi : i < 4096) (hj : j < 5) :
    fineGrid res (i*5+j) =
      updSentinel res i + (updSentinel res (i+1) - updSentinel res i) * (j : ℚ) / 10 ∧
    updSentinel res 4096 = 4095.5 := by
refine ⟨?_, ?_⟩
· exact fineGrid_eq res i j hi hj
· unfold updSentinel
  exact Function.update_same 4096 (4095.5 : ℚ) res

/-- Witness for C1 at the zero buffer, i = 0, j = 1. -/
theorem c1_witness :
    (fineGrid (fun _ => (0 : ℚ)) (0*5+1) =
      updSentinel (fun _ => (0 : ℚ)) 0 +
        (updSentinel (fun _ => (0 : ℚ)) (0+1) - updSentinel (fun _ => (0 : ℚ)) 0) * ((1 : ℕ) : ℚ) / 10) ∧
    updSentinel (fun _ => (0 : ℚ)) 4096 = 4095.5 :=
c1_fineGrid_tenth (fun _ => (0 : ℚ)) 0 1 (by norm_num) (by norm_num)

/-- Unfolding one step of the inversion scan. -/
lemma scanFold_succ (d : ℕ → ℚ) (d0 n : ℕ) :
    scanFold d d0 (n+1) = scanStep d (scanFold d d0 n) n := by
unfold scanFold
rw [List.range_succ, List.foldl_append, List.foldl_cons, List.foldl_nil]

/-- Invariant of the inversion scan: either no entry beat the initial
99999 bound and the pair is untouched, or the recorded index is the first
index attaining the minimum distance over the scanned range. -/
lemma scanFold_spec (d : ℕ → ℚ) (d0 : ℕ) :
    ∀ n : ℕ,
      (scanFold d d0 n = (99999, d0) ∧ ∀ k, k < n → 99999 ≤ d k) ∨
      ((scanFold d d0 n).1 = d (scanFold d d0 n).2 ∧ (scanFold d d0 n).2 < n ∧
        d (scanFold d d0 n).2 < 99999 ∧ (∀ k, k < n → d (scanFold d d0 n).2 ≤ d k) ∧
        (∀ k, k < (scanFold d d0 n).2 → d (scanFold d d0 n).2 < d k)) := by
intro n
induction n with
| zero =>
  left
  exact ⟨rfl, fun k hk => absurd hk (Nat.not_lt_zero k)⟩
| succ n ih =>
  rw [scanFold_succ]
  rcases ih with ⟨heq, hall⟩ | ⟨h1, h2, h3, h4, h5⟩
  · rw [heq]
    unfold scanStep
    dsimp only
    by_cases hdn : d n < (99999 : ℚ)
    · rw [if_pos hdn]
      right
      refine ⟨rfl, Nat.lt_succ_self n, hdn, ?_, ?_⟩
      · intro k hk
        rcases Nat.lt_succ_iff_lt_or_eq.mp hk with h | h
        · exact (lt_of_lt_of_le hdn (hall k h)).le
        · subst h
          exact le_refl _
      · intro k hk
        exact lt_of_lt_of_le hdn (hall k hk)
    · rw [if_neg hdn]
      left
      refine ⟨rfl, ?_⟩
      intro k hk
      rcases Nat.lt_succ_iff_lt_or_eq.mp hk with h | h
      · exact hall k h
      · subst h
        exact not_lt.mp hdn
  · unfold scanStep
    rw [h1]
    by_cases hdn : d n < d (scanFold d d0 n).2
    · rw [if_pos hdn]
      right
      dsimp only
      refine ⟨rfl, Nat.lt_succ_self n, lt_trans hdn h3, ?_, ?_⟩
      · intro k hk
        rcases Nat.lt_succ_iff_lt_or_eq.mp hk with h | h
        · exact (lt_of_lt_of_le hdn (h4 k h)).le
        · subst h
          exact le_refl _
      · intro k hk
        exact lt_of_lt_of_le hdn (h4 k hk)
    · rw [if_neg hdn]
      right
      refine ⟨h1, Nat.lt_succ_of_lt h2, h3, ?_, h5⟩
      intro k hk
      rcases Nat.lt_succ_iff_lt_or_eq.mp hk with h | h
      · exact h4 k h
      · subst h
        exact not_lt.mp hdn

/-- Claim C7: the correction table produced by the inversion stage is 0
at index 0 unconditionally, and for every target code i in 1..4095 whose
minimum distance to the fine grid beats the 99999 start bound it equals
j/5 where j is the lowest fine-grid index minimizing the distance to i
(first minimum found by the low-to-high scan, which keeps strictly
smaller distances only); this holds whatever value d0 the uninitialised
index variable starts with. -/
theorem c7_inversion (g : ℕ → ℚ) (d0 : ℕ) (i : ℕ) :
    lutValue g d0 0 = 0 ∧
    (1 ≤ i → i ≤ 4095 →
      (∃ k, k < 5*4096 ∧ diffAt g i k < 99999) →
      ∃ j : ℕ, lutValue g d0 i = (j : ℚ) / 5 ∧ j < 5*4096 ∧
        (∀ k, k < 5*4096 → diffAt g i j ≤ diffAt g i k) ∧
        (∀ k, k < j → diffAt g i j < diffAt g i k)) := by
constructor
· rfl
· intro hi1 _ hex
  obtain ⟨k, hk, hdk⟩ := hex
  rcases scanFold_spec (diffAt g i) d0 (5*4096) with ⟨_, hall⟩ | ⟨_, hb, _, hd, he⟩
  · exact absurd hdk (not_lt.mpr (hall k hk))
  · refine ⟨(scanFold (diffAt g i) d0 (5*4096)).2, ?_, hb, hd, he⟩
    unfold lutValue
    rw [if_neg (by omega)]
    rfl

/-- Witness for C7 on the identity grid at target code 1. -/
theorem c7_witness :
    lutValue (fun k => (k : ℚ)) 0 0 = 0 ∧
    (∃ j : ℕ, lutValue (fun k => (k : ℚ)) 0 1 = (j : ℚ) / 5 ∧ j < 5*4096 ∧
      (∀ k, k < 5*4096 → diffAt (fun k => (k : ℚ)) 1 j ≤ diffAt (fun k => (k : ℚ)) 1 k) ∧
      (∀ k, k < j → diffAt (fun k => (k : ℚ)) 1 j < diffAt (fun k => (k : ℚ)) 1 k)) :=
⟨(c7_inversion (fun k => (k : ℚ)) 0 0).1,
 (c7_inversion (fun k => (k : ℚ)) 0 1).2 (by norm_num) (by norm_num)
   ⟨0, by norm_num, by norm_num [diffAt]⟩⟩

end LinarADC
